import Mathlib

/-!
Verification of the account-consolidator engine against its specification.

The definitions below are shallow embeddings of the repository's code:
* `clean_project_id` embeds `clean_project_id` in v1/file_preprocessor.py;
* `pmrFinalProjectId`, `import_pmr_row` embed the id normalization and
  INSERT IGNORE of `import_pmr_data` in v1/db_operations.py;
* `allocate_salary`, `consolidate_v3` embed `allocate_salary` and the
  insert loop of `consolidate` in v3/gpt.py (the allocation mode is the
  Python mode string; a row's month key stands for
  `month_key_from_dt(utilization_end_dt)`);
* `tempAllocatedSalary`, `consolidationRowsV1`, `consolidate_data_v1`
  embed the SQL of `consolidate_data` in v1/db_operations.py;
* `backfillRel` embeds the UPDATE..JOIN of `fill_missing_emails` as a
  relation between the table before and after, because MySQL leaves the
  chosen joined row unspecified when several rows of the joined
  subquery match one updated row.

Machine floats/DECIMALs are modelled as exact rationals, SQL NULL and
Python None as `Option`, tables as lists of rows.
-/

namespace AccountConsolidator

/-! ### Normalizer: project id cleaning (v1/file_preprocessor.py and import_pmr_data) -/

/-- Python `str.strip()` on the character list of a string. -/
def stripList (l : List Char) : List Char :=
  ((l.dropWhile Char.isWhitespace).reverse.dropWhile Char.isWhitespace).reverse

/-- Python `str.strip()`. -/
def pyStrip (s : String) : String :=
  String.mk (stripList s.data)

/-- Python `str.isdigit()` (ASCII digits): true iff nonempty and all digits. -/
def pyIsDigit (s : String) : Bool :=
  !s.data.isEmpty && s.data.all Char.isDigit

/-- Python `str.lstrip('0')`. -/
def lstripZeros (s : String) : String :=
  String.mk (s.data.dropWhile (fun c => c = '0'))

/-- `clean_project_id` from v1/file_preprocessor.py:
strip, then drop leading zeros when the stripped value is all digits. -/
def clean_project_id (pid : String) : String :=
  let stripped := pyStrip pid
  if pyIsDigit stripped then lstripZeros stripped else stripped

/-- The inline id normalization of `import_pmr_data` in v1/db_operations.py
(`stripped_id.lstrip('0') if stripped_id.isdigit() else stripped_id`). -/
def pmrFinalProjectId (raw : String) : String :=
  let stripped := pyStrip raw
  if pyIsDigit stripped then lstripZeros stripped else stripped

/-- A row of the global PMR directory table (`pmr_project_managers`). -/
structure PmrRow where
  project_id : String
  manager_name : Option String
  manager_email : Option String
deriving DecidableEq, Repr

/-- A source row of a PMR spreadsheet as read by `import_pmr_data`. -/
structure PmrSourceRow where
  sap_project_id : String
  program_manager_name : String
  program_manager_email : String
deriving DecidableEq, Repr

/-- `INSERT IGNORE` into the PMR table, whose primary key is PROJECT_ID. -/
def insertIgnorePmr (dir : List PmrRow) (pid nm em : String) : List PmrRow :=
  if dir.any (fun e => e.project_id == pid) then dir
  else dir ++ [⟨pid, some nm, some em⟩]

/-- One loop iteration of `import_pmr_data` in v1/db_operations.py. -/
def import_pmr_row (dir : List PmrRow) (row : PmrSourceRow) : List PmrRow :=
  let fid := pmrFinalProjectId row.sap_project_id
  if fid ≠ "" then
    insertIgnorePmr dir fid (pyStrip row.program_manager_name)
      (pyStrip row.program_manager_email)
  else dir

/-- The whole import loop of `import_pmr_data`. -/
def import_pmr_data (dir : List PmrRow) (rows : List PmrSourceRow) : List PmrRow :=
  rows.foldl import_pmr_row dir

lemma stripList_all_zero_drop {l : List Char} (h : ∀ c ∈ l, c = '0') :
    l.dropWhile (fun c => c = '0') = [] := by
  induction l with
  | nil => rfl
  | cons a t ih =>
      have ha : a = '0' := h a (List.mem_cons_self a t)
      have ht := ih (fun c hc => h c (List.mem_cons_of_mem a hc))
      rw [List.dropWhile_cons]
      simp [ha, ht]

/-- Claim C8: project-id normalization strips surrounding whitespace, drops
leading zeros exactly on all-digit values, passes other values through
trimmed only, and the directory-side normalization in `import_pmr_data`
is the same function as the assignment-side `clean_project_id`. -/
theorem c8_project_id_normalization (pid : String) :
    ((pyStrip pid).data.all Char.isDigit →
      clean_project_id pid = lstripZeros (pyStrip pid)) ∧
    (¬ (pyStrip pid).data.all Char.isDigit →
      clean_project_id pid = pyStrip pid) ∧
    pmrFinalProjectId pid = clean_project_id pid := by
  refine ⟨?_, ?_, rfl⟩
  · intro hall
    by_cases hne : (pyStrip pid).data.isEmpty
    · have hnil : (pyStrip pid).data = [] := by
        simpa [List.isEmpty_iff] using hne
      have hstr : pyStrip pid = lstripZeros (pyStrip pid) := by
        apply String.ext
        simp [lstripZeros, hnil]
      simp only [clean_project_id, pyIsDigit, hnil]
      simpa using hstr
    · simp [clean_project_id, pyIsDigit, hne, hall]
  · intro hall
    simp [clean_project_id, pyIsDigit, hall]

/-- Witness for C8 at concrete inputs. -/
theorem c8_project_id_normalization_witness :
    clean_project_id (" 007 ") = lstripZeros (pyStrip (" 007 ")) ∧
    clean_project_id ("AB01 ") = pyStrip ("AB01 ") := by
  refine ⟨(c8_project_id_normalization (" 007 ")).1 (by decide),
    (c8_project_id_normalization ("AB01 ")).2.1 (by decide)⟩

/-- Claim C10: a directory import row whose project id strips to the empty
string or to all zeros is normalized to the empty string and inserts
nothing; `clean_project_id` likewise maps such ids to the empty string. -/
theorem c10_all_zero_ids_dropped (dir : List PmrRow) (row : PmrSourceRow)
    (h : stripList row.sap_project_id.data = [] ∨
      (stripList row.sap_project_id.data ≠ [] ∧
        ∀ c ∈ stripList row.sap_project_id.data, c = '0')) :
    import_pmr_row dir row = dir ∧ clean_project_id row.sap_project_id = "" := by
  have hdata : (pyStrip row.sap_project_id).data = stripList row.sap_project_id.data := rfl
  have hid : pmrFinalProjectId row.sap_project_id = "" := by
    rcases h with hnil | ⟨hne, hall⟩
    · have hs : pyStrip row.sap_project_id = "" := by
        apply String.ext; rw [hdata, hnil]
      simp [pmrFinalProjectId, hs, pyIsDigit]
    · have hdig : (pyStrip row.sap_project_id).data.all Char.isDigit = true := by
        rw [hdata, List.all_eq_true]
        intro c hc; rw [hall c hc]; decide
      have hdigit : pyIsDigit (pyStrip row.sap_project_id) = true := by
        rw [pyIsDigit, hdata]
        simp only [List.isEmpty_iff, Bool.and_eq_true, Bool.not_eq_true']
        refine ⟨by simpa [List.isEmpty_iff] using hne, ?_⟩
        rw [← hdata]; exact hdig
      have hzero : lstripZeros (pyStrip row.sap_project_id) = "" := by
        apply String.ext
        rw [lstripZeros, hdata]
        simpa using stripList_all_zero_drop hall
      simp [pmrFinalProjectId, hdigit, hzero]
  constructor
  · simp [import_pmr_row, hid]
  · have : clean_project_id row.sap_project_id
        = pmrFinalProjectId row.sap_project_id := rfl
    rw [this, hid]

/-- Witness for C10 at concrete inputs. -/
theorem c10_all_zero_ids_dropped_witness :
    import_pmr_row [] ⟨" 000 ", "N", "E"⟩ = [] ∧
    clean_project_id (" 000 ") = "" :=
  c10_all_zero_ids_dropped [] ⟨" 000 ", "N", "E"⟩ (Or.inr (by constructor <;> decide))

/-! ### Allocation engine of v3 (allocate_salary and consolidate in v3/gpt.py) -/

/-- A row of uk.regional as loaded by v3; `month_key` stands for
`month_key_from_dt(utilization_end_dt)` (None when the date is absent or
unparseable), `total_hours` for the TOTAL_HOURS column (None when NULL). -/
structure RegionalRowV3 where
  emplid : String
  month_key : Option String
  total_hours : Option ℚ
  project_id : Option String
deriving DecidableEq, Repr

/-- A row of uk.salary as loaded by v3; `month_key` stands for
`month_key_from_dt(month)`. -/
structure SalaryRowV3 where
  emplid : String
  month_key : Option String
  gross_pay : Option ℚ
deriving DecidableEq, Repr

/-- The salary map of `load_salary`: dict keyed by (emplid, month key),
later rows overwrite earlier ones, a NULL gross_pay is stored as None and
is indistinguishable from an absent key at the use site. -/
def salaryLookup (sals : List SalaryRowV3) (e : String) (m : Option String) : Option ℚ :=
  match (sals.filter (fun s => s.emplid == e && s.month_key == m)).getLast? with
  | some s => s.gross_pay
  | none => none

/-- Indices of the regional rows in the (emplid, month key) group, in row
order, as built by the defaultdict grouping of `allocate_salary`. -/
def groupIdxs (rows : List RegionalRowV3) (e : String) (m : Option String) :
    List (Fin rows.length) :=
  (List.finRange rows.length).filter
    (fun i => (rows.get i).emplid == e && (rows.get i).month_key == m)

/-- Hours of a regional row, `float(h) if h is not None else 0.0`. -/
def hoursOf (rows : List RegionalRowV3) (i : Fin rows.length) : ℚ :=
  ((rows.get i).total_hours).getD 0

/-- The constant GROSS_PAY_ALLOCATION of v3/gpt.py. -/
def GROSS_PAY_ALLOCATION : String := "split_by_hours"

/-- The branch structure of the per-group loop body of `allocate_salary`
in v3/gpt.py, for a group `g` of row indices with salary `sal` and hours
function `hrs`: the chain len==1 or first_only / split_equal /
split_by_hours / safety fallback, read off row `i`'s slot. -/
def allocFromGroup (mode : String) (sal : ℚ) {n : ℕ} (g : List (Fin n))
    (hrs : Fin n → ℚ) (i : Fin n) : Option ℚ :=
  if g.length = 1 ∨ mode = "first_only" then
    if g.head? = some i then some sal
    else if mode = "first_only" then some 0
    else none
  else if mode = "split_equal" then some (sal / g.length)
  else if mode = "split_by_hours" then
    if 0 < (g.map hrs).sum then some (sal * (hrs i / (g.map hrs).sum))
    else some (sal / g.length)
  else some (sal / g.length)

/-- The allocated gross pay of regional row `i`, as computed by
`allocate_salary` in v3/gpt.py, written pointwise: the Python loop fills
each group's indices from the group's data, every index belongs to
exactly one group, and a group without salary is skipped (allocated[i]
stays None), so `allocated[i]` is this expression. -/
def allocate_salary (mode : String) (rows : List RegionalRowV3)
    (sals : List SalaryRowV3) (i : Fin rows.length) : Option ℚ :=
  match salaryLookup sals (rows.get i).emplid (rows.get i).month_key with
  | none => none
  | some sal =>
      allocFromGroup mode sal
        (groupIdxs rows (rows.get i).emplid (rows.get i).month_key)
        (hoursOf rows) i

/-- A row of uk.consolidated as inserted by `consolidate` in v3/gpt.py
(the fields relevant to the claims; the ABD enrichment columns and the
regional passthrough columns are omitted as they play no role in any
claim about v3). -/
structure ConsolidatedRowV3 where
  emplid : String
  month : Option String
  gross_pay : Option ℚ
  project_id : Option String
  pgm_manager_name : Option String
  pgm_manager_email : Option String
deriving DecidableEq, Repr

/-- The pmr_map lookup of v3 (`if project_id in pmr_map`), dict built with
later rows overwriting earlier ones. -/
def pmrLookupV3 (pmr : List PmrRow) (pid : Option String) : Option PmrRow :=
  match pid with
  | some p => (pmr.filter (fun x => x.project_id == p)).getLast?
  | none => none

/-- The consolidated row inserted for regional row `i` by `consolidate`. -/
def consolidateRowV3 (mode : String) (rows : List RegionalRowV3)
    (sals : List SalaryRowV3) (pmr : List PmrRow) (i : Fin rows.length) :
    ConsolidatedRowV3 :=
  let r := rows.get i
  let pm := pmrLookupV3 pmr r.project_id
  { emplid := r.emplid
    month := r.month_key
    gross_pay := allocate_salary mode rows sals i
    project_id := r.project_id
    pgm_manager_name := pm.bind (fun x => x.manager_name)
    pgm_manager_email := pm.bind (fun x => x.manager_email) }

/-- The insert loop of `consolidate` in v3/gpt.py: one consolidated row
per regional row, in order. -/
def consolidate_v3 (mode : String) (rows : List RegionalRowV3)
    (sals : List SalaryRowV3) (pmr : List PmrRow) : List ConsolidatedRowV3 :=
  (List.finRange rows.length).map (consolidateRowV3 mode rows sals pmr)

/-- A whole v3 run: `create_consolidated` drops and recreates the table,
so the resulting table does not depend on the previous contents. -/
def run_consolidate_v3 (_prev : List ConsolidatedRowV3) (mode : String)
    (rows : List RegionalRowV3) (sals : List SalaryRowV3) (pmr : List PmrRow) :
    List ConsolidatedRowV3 :=
  consolidate_v3 mode rows sals pmr

lemma mem_groupIdxs {rows : List RegionalRowV3} {e : String} {m : Option String}
    {j : Fin rows.length} (hj : j ∈ groupIdxs rows e m) :
    (rows.get j).emplid = e ∧ (rows.get j).month_key = m := by
  have := (List.mem_filter.mp hj).2
  simpa using this

lemma self_mem_groupIdxs (rows : List RegionalRowV3) (i : Fin rows.length) :
    i ∈ groupIdxs rows (rows.get i).emplid (rows.get i).month_key := by
  refine List.mem_filter.mpr ⟨List.mem_finRange i, by simp⟩

lemma groupIdxs_nodup (rows : List RegionalRowV3) (e : String) (m : Option String) :
    (groupIdxs rows e m).Nodup :=
  (List.nodup_finRange rows.length).filter _

lemma groupIdxs_congr {rows : List RegionalRowV3} {e : String} {m : Option String}
    {j : Fin rows.length} (hj : j ∈ groupIdxs rows e m) :
    groupIdxs rows (rows.get j).emplid (rows.get j).month_key = groupIdxs rows e m := by
  obtain ⟨he, hm⟩ := mem_groupIdxs hj
  rw [he, hm]

/-- At a member of the (e, m) group with a salary, `allocate_salary`
computes the group branch expression of that group. -/
lemma allocate_salary_eq_group (mode : String) (rows : List RegionalRowV3)
    (sals : List SalaryRowV3) {e : String} {m : Option String} {sal : ℚ}
    {j : Fin rows.length} (hj : j ∈ groupIdxs rows e m)
    (hs : salaryLookup sals e m = some sal) :
    allocate_salary mode rows sals j =
      allocFromGroup mode sal (groupIdxs rows e m) (hoursOf rows) j := by
  obtain ⟨he, hm⟩ := mem_groupIdxs hj
  unfold allocate_salary
  rw [he, hm, hs]

lemma sum_map_ite_head {α : Type} [DecidableEq α] (g : List α) (sal : ℚ)
    (hnd : g.Nodup) (hne : g ≠ []) :
    (g.map (fun j => if g.head? = some j then sal else 0)).sum = sal := by
  cases g with
  | nil => exact absurd rfl hne
  | cons a t =>
      have hmem : a ∉ t := (List.nodup_cons.mp hnd).1
      simp only [List.map_cons, List.head?_cons, List.sum_cons]
      have ht : ∀ x ∈ t.map (fun j => if some a = some j then sal else 0), x = 0 := by
        intro x hx
        obtain ⟨j, hjt, rfl⟩ := List.mem_map.mp hx
        have : a ≠ j := fun h => hmem (h ▸ hjt)
        simp [this]
      rw [List.sum_eq_zero ht]
      simp

lemma sum_map_const_q {α : Type} (l : List α) (c : ℚ) :
    (l.map (fun _ => c)).sum = l.length * c := by
  induction l with
  | nil => simp
  | cons a t ih =>
      simp [ih]
      ring

lemma sum_map_const_div {α : Type} (g : List α) (sal : ℚ) (hne : g ≠ []) :
    (g.map (fun _ => sal / (g.length : ℚ))).sum = sal := by
  rw [sum_map_const_q]
  have h0 : g.length ≠ 0 := fun h => hne (List.length_eq_zero.mp h)
  have hq : (g.length : ℚ) ≠ 0 := Nat.cast_ne_zero.mpr h0
  field_simp

lemma sum_map_mul_div {α : Type} (g : List α) (f : α → ℚ) (sal T : ℚ) :
    (g.map (fun j => sal * (f j / T))).sum = sal * ((g.map f).sum / T) := by
  induction g with
  | nil => simp
  | cons a t ih =>
      simp [ih]
      ring

/-- Conservation of a group's salary by the group branch expression, for
every mode string (the recognized modes and the safety fallback alike). -/
lemma allocFromGroup_sum (mode : String) (sal : ℚ) {n : ℕ}
    (g : List (Fin n)) (hrs : Fin n → ℚ) (hnd : g.Nodup) (hne : g ≠ []) :
    (g.map (fun j => (allocFromGroup mode sal g hrs j).getD 0)).sum = sal := by
  by_cases h1 : g.length = 1 ∨ mode = "first_only"
  · have hrw : ∀ j ∈ g, (allocFromGroup mode sal g hrs j).getD 0 =
        (if g.head? = some j then sal else 0) := by
      intro j hj
      unfold allocFromGroup
      rw [if_pos h1]
      by_cases hh : g.head? = some j
      · simp [hh]
      · by_cases hf : mode = "first_only" <;> simp [hh, hf]
    rw [List.map_congr_left hrw]
    exact sum_map_ite_head g sal hnd hne
  · by_cases h2 : mode = "split_equal"
    · have hrw : ∀ j ∈ g, (allocFromGroup mode sal g hrs j).getD 0 =
          sal / (g.length : ℚ) := by
        intro j hj
        unfold allocFromGroup
        rw [if_neg h1, if_pos h2]
        rfl
      rw [List.map_congr_left hrw]
      exact sum_map_const_div g sal hne
    · by_cases h3 : mode = "split_by_hours"
      · by_cases h4 : 0 < (g.map hrs).sum
        · have hrw : ∀ j ∈ g, (allocFromGroup mode sal g hrs j).getD 0 =
              sal * (hrs j / (g.map hrs).sum) := by
            intro j hj
            unfold allocFromGroup
            rw [if_neg h1, if_neg h2, if_pos h3, if_pos h4]
            rfl
          rw [List.map_congr_left hrw, sum_map_mul_div g hrs sal _]
          have hT : (g.map hrs).sum ≠ 0 := ne_of_gt h4
          field_simp
        · have hrw : ∀ j ∈ g, (allocFromGroup mode sal g hrs j).getD 0 =
              sal / (g.length : ℚ) := by
            intro j hj
            unfold allocFromGroup
            rw [if_neg h1, if_neg h2, if_pos h3, if_neg h4]
            rfl
          rw [List.map_congr_left hrw]
          exact sum_map_const_div g sal hne
      · have hrw : ∀ j ∈ g, (allocFromGroup mode sal g hrs j).getD 0 =
            sal / (g.length : ℚ) := by
          intro j hj
          unfold allocFromGroup
          rw [if_neg h1, if_neg h2, if_neg h3]
          rfl
        rw [List.map_congr_left hrw]
        exact sum_map_const_div g sal hne

/-- When the group has a salary, every row of the group receives an
allocation (allocated[j] is not None). -/
lemma allocFromGroup_isSome (mode : String) (sal : ℚ) {n : ℕ}
    (g : List (Fin n)) (hrs : Fin n → ℚ) {j : Fin n} (hj : j ∈ g) :
    (allocFromGroup mode sal g hrs j).isSome := by
  unfold allocFromGroup
  by_cases h1 : g.length = 1 ∨ mode = "first_only"
  · rw [if_pos h1]
    by_cases hh : g.head? = some j
    · simp [hh]
    · rcases h1 with hlen | hf
      · exfalso
        apply hh
        rcases List.length_eq_one.mp hlen with ⟨a, ha⟩
        have hja : j = a := by simpa [ha] using hj
        rw [ha, hja]
        rfl
      · simp [hh, hf]
  · rw [if_neg h1]
    by_cases h2 : mode = "split_equal"
    · simp [h2]
    · rw [if_neg h2]
      by_cases h3 : mode = "split_by_hours"
      · rw [if_pos h3]
        by_cases h4 : 0 < (g.map hrs).sum <;> simp [h4]
      · rw [if_neg h3]
        simp

/-- Conservation for `allocate_salary` over an (e, m) group with salary. -/
lemma allocate_salary_group_sum (mode : String) (rows : List RegionalRowV3)
    (sals : List SalaryRowV3) (e : String) (m : Option String) (sal : ℚ)
    (hs : salaryLookup sals e m = some sal) (hne : groupIdxs rows e m ≠ []) :
    ((groupIdxs rows e m).map
      (fun j => (allocate_salary mode rows sals j).getD 0)).sum = sal := by
  have hrw : ∀ j ∈ groupIdxs rows e m, (allocate_salary mode rows sals j).getD 0 =
      (allocFromGroup mode sal (groupIdxs rows e m) (hoursOf rows) j).getD 0 := by
    intro j hj
    rw [allocate_salary_eq_group mode rows sals hj hs]
  rw [List.map_congr_left hrw]
  exact allocFromGroup_sum mode sal (groupIdxs rows e m) (hoursOf rows)
    (groupIdxs_nodup rows e m) hne

lemma filterMap_sum_of_isSome {n : ℕ} (g : List (Fin n)) (f : Fin n → Option ℚ)
    (h : ∀ j ∈ g, (f j).isSome) :
    (g.filterMap f).sum = (g.map (fun j => (f j).getD 0)).sum := by
  induction g with
  | nil => simp
  | cons a t ih =>
      obtain ⟨v, hv⟩ := Option.isSome_iff_exists.mp (h a (List.mem_cons_self a t))
      rw [List.filterMap_cons, hv, List.map_cons, List.sum_cons, List.sum_cons,
        ih (fun j hj => h j (List.mem_cons_of_mem a hj))]
      simp [hv]

/-- Claim C2: in the default hours-based mode of v3, a single-assignment
group receives the full salary; a multi-assignment group with positive
total hours is pro-rated by hours (missing hours are 0 via `hoursOf`);
and a multi-assignment group whose hours sum to zero is split equally. -/
theorem c2_default_mode_case_analysis (rows : List RegionalRowV3)
    (sals : List SalaryRowV3) (i : Fin rows.length) (sal : ℚ)
    (hs : salaryLookup sals (rows.get i).emplid (rows.get i).month_key = some sal) :
    (groupIdxs rows (rows.get i).emplid (rows.get i).month_key = [i] →
      allocate_salary GROSS_PAY_ALLOCATION rows sals i = some sal) ∧
    (1 < (groupIdxs rows (rows.get i).emplid (rows.get i).month_key).length →
      0 < ((groupIdxs rows (rows.get i).emplid (rows.get i).month_key).map
            (hoursOf rows)).sum →
      allocate_salary GROSS_PAY_ALLOCATION rows sals i =
        some (sal * (hoursOf rows i /
          ((groupIdxs rows (rows.get i).emplid (rows.get i).month_key).map
            (hoursOf rows)).sum))) ∧
    (1 < (groupIdxs rows (rows.get i).emplid (rows.get i).month_key).length →
      ((groupIdxs rows (rows.get i).emplid (rows.get i).month_key).map
        (hoursOf rows)).sum = 0 →
      allocate_salary GROSS_PAY_ALLOCATION rows sals i =
        some (sal / (groupIdxs rows (rows.get i).emplid
          (rows.get i).month_key).length)) := by
  have hmem := self_mem_groupIdxs rows i
  have halloc := allocate_salary_eq_group GROSS_PAY_ALLOCATION rows sals hmem hs
  refine ⟨?_, ?_, ?_⟩
  · intro hsingle
    rw [halloc]
    unfold allocFromGroup
    rw [if_pos (Or.inl (by rw [hsingle]; rfl))]
    rw [hsingle]
    simp
  · intro hlen hpos
    rw [halloc]
    unfold allocFromGroup
    rw [if_neg (by
      rintro (h | h)
      · omega
      · exact absurd h (by decide))]
    rw [if_neg (by decide), if_pos (by rfl), if_pos hpos]
  · intro hlen hzero
    rw [halloc]
    unfold allocFromGroup
    rw [if_neg (by
      rintro (h | h)
      · omega
      · exact absurd h (by decide))]
    rw [if_neg (by decide), if_pos (by rfl), if_neg (by rw [hzero]; exact lt_irrefl 0)]

def c2rows : List RegionalRowV3 :=
  [⟨"A1", some ("01_2024"), some 40, some ("P1")⟩,
   ⟨"A1", some ("01_2024"), some 60, some ("P2")⟩]

def c2sals : List SalaryRowV3 := [⟨"A1", some ("01_2024"), some 1000⟩]

def c2zrows : List RegionalRowV3 :=
  [⟨"A3", some ("02_2024"), some 0, some ("P3")⟩,
   ⟨"A3", some ("02_2024"), some 0, some ("P4")⟩]

def c2zsals : List SalaryRowV3 := [⟨"A3", some ("02_2024"), some 1000⟩]

/-- Witness for C2: the spec's concrete scenarios 1 and 3 (40/60 hours on
1000.00 gives 400.00, and an all-zero-hours pair splits 500.00 each). -/
theorem c2_default_mode_case_analysis_witness :
    allocate_salary GROSS_PAY_ALLOCATION c2rows c2sals ⟨0, by decide⟩ = some 400 ∧
    allocate_salary GROSS_PAY_ALLOCATION c2zrows c2zsals ⟨1, by decide⟩ = some 500 := by
  constructor
  · have h := (c2_default_mode_case_analysis c2rows c2sals ⟨0, by decide⟩ 1000
      (by decide)).2.1 (by decide)
      (by norm_num [groupIdxs, hoursOf, c2rows, List.finRange])
    exact h.trans (by norm_num [groupIdxs, hoursOf, c2rows, List.finRange])
  · have h := (c2_default_mode_case_analysis c2zrows c2zsals ⟨1, by decide⟩ 1000
      (by decide)).2.2 (by decide)
      (by norm_num [groupIdxs, hoursOf, c2zrows, List.finRange])
    exact h.trans (by norm_num [groupIdxs, c2zrows, List.finRange])

def c5rows : List RegionalRowV3 :=
  [⟨"E1", some ("01_2024"), some (-5), some ("P1")⟩,
   ⟨"E1", some ("01_2024"), some 10, some ("P2")⟩]

def c5sals : List SalaryRowV3 := [⟨"E1", some ("01_2024"), some 100⟩]

/-- Counterexample to C5 as stated: a group with a negative-hours
assignment is not skipped and gets no warning; v3 emits consolidated
records for both rows, allocating -100 and 200 of the 100 gross. -/
theorem c5_counterexample :
    (consolidate_v3 GROSS_PAY_ALLOCATION c5rows c5sals []).map
      (fun c => c.gross_pay) = [some (-100), some 200] ∧
    (c5rows.get ⟨0, by decide⟩).total_hours = some (-5) := by
  refine ⟨?_, by decide⟩
  norm_num [consolidate_v3, consolidateRowV3, allocate_salary, salaryLookup,
    allocFromGroup, groupIdxs, hoursOf, c5rows, c5sals, List.finRange,
    GROSS_PAY_ALLOCATION]
  decide

/-! ### Consolidator of v1 (consolidate_data in v1/db_operations.py) -/

/-- A row of the regional table of v1 (employee_regional_details); the
text columns are imported as stripped strings, TOTAL_HOURS may be NULL. -/
structure RegionalRowV1 where
  fiscal_year : String
  emplid : String
  month : String
  project_id : String
  total_hours : Option ℚ
  current_work_location : String
  project_description : String
  project_type : String
  contract_type : String
  cust_name : String
deriving DecidableEq, Repr

/-- A row of the salary table of v1 (france_salary_data). -/
structure SalaryRowV1 where
  fiscal_year : String
  emplid : String
  month : String
  gross_pay : Option ℚ
  er_nic_sum : Option ℚ
deriving DecidableEq, Repr

/-- A row of the ABD table (associate_base_data); `id` is the
AUTO_INCREMENT primary key. -/
structure AbdRowV1 where
  id : ℕ
  emplid : String
  designation : Option String
  band : Option String
  org_function : Option String
  program_manager_name : Option String
deriving DecidableEq, Repr

/-- A row of the temporary table temp_allocated_salary. -/
structure TempAllocatedRow where
  fiscal_year : String
  emplid : String
  month : String
  gross_pay : Option ℚ
  er_nic_sum : Option ℚ
  project_id : Option String
deriving DecidableEq, Repr

/-- A row of the consolidation table of v1. -/
structure ConsolidationRowV1 where
  fiscal_year : String
  emplid : String
  month : String
  gross_pay : Option ℚ
  er_nic_sum : Option ℚ
  designation : Option String
  band : Option String
  org_function : Option String
  current_work_location : Option String
  project_id : Option String
  project_description : Option String
  project_type : Option String
  contract_type : Option String
  cust_name : Option String
  pgm_manager_name : Option String
  pgm_manager_email : Option String
deriving DecidableEq, Repr

/-- The regional rows of an (EMPLID, Month) group in fiscal year `fy`
(the join keys of the allocation queries). -/
def groupRegional (regs : List RegionalRowV1) (fy e m : String) :
    List RegionalRowV1 :=
  regs.filter (fun r => r.fiscal_year == fy && r.emplid == e && r.month == m)

/-- The group's rows with TOTAL_HOURS > 0 (the WHERE clause of the emh
subquery and of r_valid; a NULL TOTAL_HOURS does not satisfy it). -/
def positiveHours (regs : List RegionalRowV1) (fy e m : String) :
    List RegionalRowV1 :=
  (groupRegional regs fy e m).filter
    (fun r => match r.total_hours with
      | some h => decide (0 < h)
      | none => false)

/-- emh.total_hours: SUM(TOTAL_HOURS) over the group's positive rows. -/
def sumPositiveHours (regs : List RegionalRowV1) (fy e m : String) : ℚ :=
  ((positiveHours regs fy e m).map (fun r => r.total_hours.getD 0)).sum

/-- SQL's NULL-propagating x * (h / t): NULL when either factor is NULL. -/
def optScaled (x h : Option ℚ) (t : ℚ) : Option ℚ :=
  match x, h with
  | some v, some hv => some (v * (hv / t))
  | _, _ => none

/-- The temp rows produced for one salary row by the allocated-salary
INSERT..SELECT (Step 2 of consolidate_data): one row per regional row of
the salary row's (EMPLID, Month) group, provided the group has at least
one TOTAL_HOURS > 0 row (otherwise the emh join produces nothing). -/
def mkAllocatedRow (s : SalaryRowV1) (T : ℚ) (r : RegionalRowV1) :
    TempAllocatedRow :=
  { fiscal_year := s.fiscal_year
    emplid := s.emplid
    month := s.month
    gross_pay := optScaled s.gross_pay r.total_hours T
    er_nic_sum := optScaled s.er_nic_sum r.total_hours T
    project_id := some r.project_id }

def allocatedRowsFor (regs : List RegionalRowV1) (fy : String)
    (s : SalaryRowV1) : List TempAllocatedRow :=
  if positiveHours regs fy s.emplid s.month = [] then []
  else (groupRegional regs fy s.emplid s.month).map
    (mkAllocatedRow s (sumPositiveHours regs fy s.emplid s.month))

/-- Step 2 of consolidate_data over the whole salary table. -/
def allocatedTempRows (regs : List RegionalRowV1) (sals : List SalaryRowV1)
    (fy : String) : List TempAllocatedRow :=
  (sals.filter (fun s => s.fiscal_year == fy)).flatMap (allocatedRowsFor regs fy)

/-- The temp row produced for a salary row by the unallocated-salary
INSERT..SELECT (Step 3): full gross pay, NULL project id. -/
def unallocatedRowFor (s : SalaryRowV1) : TempAllocatedRow :=
  { fiscal_year := s.fiscal_year
    emplid := s.emplid
    month := s.month
    gross_pay := s.gross_pay
    er_nic_sum := s.er_nic_sum
    project_id := none }

/-- Step 3 of consolidate_data: salary rows of the fiscal year whose
(EMPLID, Month) has no regional row with TOTAL_HOURS > 0. -/
def unallocatedTempRows (regs : List RegionalRowV1) (sals : List SalaryRowV1)
    (fy : String) : List TempAllocatedRow :=
  (sals.filter (fun s => s.fiscal_year == fy &&
    decide (positiveHours regs fy s.emplid s.month = []))).map unallocatedRowFor

/-- The temp_allocated_salary table after Steps 2 and 3. -/
def tempAllocatedSalary (regs : List RegionalRowV1) (sals : List SalaryRowV1)
    (fy : String) : List TempAllocatedRow :=
  allocatedTempRows regs sals fy ++ unallocatedTempRows regs sals fy

/-- The latest ABD row per EMPLID: the (EMPLID, MAX(id)) subquery of the
final insert. AUTO_INCREMENT makes ids unique; ties keep the first. -/
def abdLatest (abd : List AbdRowV1) (e : String) : Option AbdRowV1 :=
  (abd.filter (fun a => a.emplid == e)).foldl
    (fun acc a => match acc with
      | none => some a
      | some b => if b.id < a.id then some a else some b) none

/-- PMR lookup of the final insert: join on t.PROJECT_ID = pmr.PROJECT_ID
(a NULL project id matches nothing); PROJECT_ID is the primary key. -/
def pmrLookupV1 (pmr : List PmrRow) (pid : Option String) : Option PmrRow :=
  match pid with
  | some p => pmr.find? (fun x => x.project_id == p)
  | none => none

/-- The consolidation rows produced by the final INSERT..SELECT for one
temp row: LEFT JOIN back to regional on (EMPLID, Month, fiscal_year,
PROJECT_ID) — one output row per matching regional row, or a single row
with NULL regional columns when nothing matches — then LEFT JOINs to the
latest ABD row and to PMR, with COALESCE(pmr name, abd name). -/
def consRowBase (abd : List AbdRowV1) (pmr : List PmrRow)
    (t : TempAllocatedRow) (ro : Option RegionalRowV1) : ConsolidationRowV1 :=
  let a := abdLatest abd t.emplid
  let pm := pmrLookupV1 pmr t.project_id
  { fiscal_year := t.fiscal_year
    emplid := t.emplid
    month := t.month
    gross_pay := t.gross_pay
    er_nic_sum := t.er_nic_sum
    designation := a.bind (fun x => x.designation)
    band := a.bind (fun x => x.band)
    org_function := a.bind (fun x => x.org_function)
    current_work_location := ro.map (fun r => r.current_work_location)
    project_id := t.project_id
    project_description := ro.map (fun r => r.project_description)
    project_type := ro.map (fun r => r.project_type)
    contract_type := ro.map (fun r => r.contract_type)
    cust_name := ro.map (fun r => r.cust_name)
    pgm_manager_name :=
      match pm.bind (fun x => x.manager_name) with
      | some nm => some nm
      | none => a.bind (fun x => x.program_manager_name)
    pgm_manager_email := pm.bind (fun x => x.manager_email) }

def consRowsForTemp (regs : List RegionalRowV1) (abd : List AbdRowV1)
    (pmr : List PmrRow) (t : TempAllocatedRow) : List ConsolidationRowV1 :=
  match t.project_id with
  | none => [consRowBase abd pmr t none]
  | some p =>
      match regs.filter (fun r => r.emplid == t.emplid && r.month == t.month &&
        r.fiscal_year == t.fiscal_year && r.project_id == p) with
      | [] => [consRowBase abd pmr t none]
      | rs => rs.map (fun r => consRowBase abd pmr t (some r))

/-- The rows inserted into the consolidation table for fiscal year `fy`
by consolidate_data. -/
def consolidationRowsV1 (regs : List RegionalRowV1) (sals : List SalaryRowV1)
    (abd : List AbdRowV1) (pmr : List PmrRow) (fy : String) :
    List ConsolidationRowV1 :=
  (tempAllocatedSalary regs sals fy).flatMap (consRowsForTemp regs abd pmr)

/-- A whole consolidate_data run: DELETE FROM consolidation WHERE
fiscal_year = fy, then insert the newly consolidated rows. -/
def consolidate_data_v1 (prev : List ConsolidationRowV1)
    (regs : List RegionalRowV1) (sals : List SalaryRowV1)
    (abd : List AbdRowV1) (pmr : List PmrRow) (fy : String) :
    List ConsolidationRowV1 :=
  prev.filter (fun c => !(c.fiscal_year == fy)) ++
    consolidationRowsV1 regs sals abd pmr fy

/-- The (EMPLID, Month, fiscal_year) key predicate on salary rows. -/
def salKey (fy e m : String) (s : SalaryRowV1) : Bool :=
  s.fiscal_year == fy && s.emplid == e && s.month == m

/-- Sum of the non-NULL gross_pay values of consolidation rows. -/
def sumGross (l : List ConsolidationRowV1) : ℚ :=
  (l.filterMap (fun c => c.gross_pay)).sum

lemma filter_of_keyed {β : Type} (L : List β) (p : β → Bool) (b : Bool)
    (h : ∀ x ∈ L, p x = b) : L.filter p = if b then L else [] := by
  cases b with
  | true =>
      rw [if_pos rfl]
      exact List.filter_eq_self.mpr (fun x hx => by rw [h x hx])
  | false =>
      rw [if_neg Bool.false_ne_true]
      exact List.filter_eq_nil_iff.mpr (fun x hx => by simp [h x hx])

lemma filter_flatMap_keyed {α β : Type} (l : List α) (f : α → List β)
    (p : β → Bool) (q : α → Bool)
    (h : ∀ a ∈ l, (f a).filter p = if q a then f a else []) :
    (l.flatMap f).filter p = (l.filter q).flatMap f := by
  induction l with
  | nil => simp
  | cons a t ih =>
      rw [List.flatMap_cons, List.filter_append, h a (List.mem_cons_self a t),
        List.filter_cons]
      by_cases hq : q a
      · simp only [hq, if_true, List.flatMap_cons]
        rw [ih (fun x hx => h x (List.mem_cons_of_mem a hx))]
      · simp only [hq, if_false, Bool.false_eq_true, List.nil_append]
        exact ih (fun x hx => h x (List.mem_cons_of_mem a hx))

lemma sumGross_flatMap (l : List TempAllocatedRow)
    (f : TempAllocatedRow → List ConsolidationRowV1) :
    sumGross (l.flatMap f) = (l.map (fun t => sumGross (f t))).sum := by
  induction l with
  | nil => simp [sumGross]
  | cons a t ih =>
      rw [List.flatMap_cons, List.map_cons, List.sum_cons, ← ih]
      simp [sumGross, List.filterMap_append]

/-- Every consolidation row built from a temp row carries the temp row's
fiscal year, employee, month, gross pay and project id. -/
lemma consRowsForTemp_fields {regs : List RegionalRowV1} {abd : List AbdRowV1}
    {pmr : List PmrRow} {t : TempAllocatedRow} {c : ConsolidationRowV1}
    (hc : c ∈ consRowsForTemp regs abd pmr t) :
    c.fiscal_year = t.fiscal_year ∧ c.emplid = t.emplid ∧ c.month = t.month ∧
    c.gross_pay = t.gross_pay ∧ c.project_id = t.project_id := by
  have hbase : ∃ ro, c = consRowBase abd pmr t ro := by
    unfold consRowsForTemp at hc
    split at hc
    · exact ⟨none, by simpa using hc⟩
    · split at hc
      · exact ⟨none, by simpa using hc⟩
      · obtain ⟨r, _, rfl⟩ := List.mem_map.mp hc
        exact ⟨some r, rfl⟩
  obtain ⟨ro, rfl⟩ := hbase
  simp [consRowBase]

lemma allocatedRowsFor_mem {regs : List RegionalRowV1} {fy : String}
    {s : SalaryRowV1} {t : TempAllocatedRow} (ht : t ∈ allocatedRowsFor regs fy s) :
    t.fiscal_year = s.fiscal_year ∧ t.emplid = s.emplid ∧ t.month = s.month ∧
    ∃ r ∈ groupRegional regs fy s.emplid s.month, t.project_id = some r.project_id := by
  unfold allocatedRowsFor at ht
  by_cases hp : positiveHours regs fy s.emplid s.month = []
  · rw [if_pos hp] at ht
    exact absurd ht (List.not_mem_nil t)
  · rw [if_neg hp] at ht
    obtain ⟨r, hr, rfl⟩ := List.mem_map.mp ht
    exact ⟨rfl, rfl, rfl, r, hr, rfl⟩

lemma tempAllocatedSalary_origin {regs : List RegionalRowV1}
    {sals : List SalaryRowV1} {fy : String} {t : TempAllocatedRow}
    (ht : t ∈ tempAllocatedSalary regs sals fy) :
    t.fiscal_year = fy ∧ ∃ s ∈ sals, s.fiscal_year = fy ∧
      s.emplid = t.emplid ∧ s.month = t.month := by
  unfold tempAllocatedSalary at ht
  rcases List.mem_append.mp ht with ha | hu
  · unfold allocatedTempRows at ha
    obtain ⟨s, hsmem, hts⟩ := List.mem_flatMap.mp ha
    have hsf : s.fiscal_year = fy := by
      have := (List.mem_filter.mp hsmem).2
      simpa using this
    obtain ⟨h1, h2, h3, _⟩ := allocatedRowsFor_mem hts
    exact ⟨h1.trans hsf, s, (List.mem_filter.mp hsmem).1, hsf, h2.symm, h3.symm⟩
  · unfold unallocatedTempRows at hu
    obtain ⟨s, hsmem, rfl⟩ := List.mem_map.mp hu
    have hsf : s.fiscal_year = fy := by
      have := (List.mem_filter.mp hsmem).2
      simp only [Bool.and_eq_true, beq_iff_eq] at this
      exact this.1
    exact ⟨hsf, s, (List.mem_filter.mp hsmem).1, hsf, rfl, rfl⟩

lemma consolidationRowsV1_fiscal_year {regs : List RegionalRowV1}
    {sals : List SalaryRowV1} {abd : List AbdRowV1} {pmr : List PmrRow}
    {fy : String} {c : ConsolidationRowV1}
    (hc : c ∈ consolidationRowsV1 regs sals abd pmr fy) : c.fiscal_year = fy := by
  obtain ⟨t, ht, hct⟩ := List.mem_flatMap.mp hc
  exact (consRowsForTemp_fields hct).1.trans (tempAllocatedSalary_origin ht).1

/-- Claim C3: re-running consolidation is a full replace — in v1 the rows
of the fiscal year are deleted and re-derived from the inputs, in v3 the
whole table is dropped and rebuilt — so a second run on identical inputs
leaves the consolidated set identical (same rows, same values). -/
theorem c3_idempotent_full_replace (prev : List ConsolidationRowV1)
    (regs : List RegionalRowV1) (sals : List SalaryRowV1) (abd : List AbdRowV1)
    (pmr : List PmrRow) (fy : String) (prev3 : List ConsolidatedRowV3)
    (mode : String) (rows3 : List RegionalRowV3) (sals3 : List SalaryRowV3)
    (pmr3 : List PmrRow) :
    consolidate_data_v1 (consolidate_data_v1 prev regs sals abd pmr fy)
      regs sals abd pmr fy = consolidate_data_v1 prev regs sals abd pmr fy ∧
    run_consolidate_v3 (run_consolidate_v3 prev3 mode rows3 sals3 pmr3)
      mode rows3 sals3 pmr3 = run_consolidate_v3 prev3 mode rows3 sals3 pmr3 := by
  refine ⟨?_, rfl⟩
  unfold consolidate_data_v1
  rw [List.filter_append]
  have hnew : (consolidationRowsV1 regs sals abd pmr fy).filter
      (fun c => !(c.fiscal_year == fy)) = [] := by
    refine List.filter_eq_nil_iff.mpr (fun c hc => ?_)
    simp [consolidationRowsV1_fiscal_year hc]
  have hold : (prev.filter (fun c => !(c.fiscal_year == fy))).filter
      (fun c => !(c.fiscal_year == fy)) =
      prev.filter (fun c => !(c.fiscal_year == fy)) := by
    refine List.filter_eq_self.mpr (fun c hc => ?_)
    exact (List.mem_filter.mp hc).2
  rw [hnew, hold, List.append_nil]

def c6regs : List RegionalRowV1 :=
  [⟨"FY25", "E1", "2024-01-31", "P1", some 10, "L", "D", "T", "C", "N"⟩]

/-- Counterexample to C6 as stated: in v1, an Assignment whose (employee,
period) has no PayrollRecord produces no ConsolidatedRecord at all — the
final insert only reads temp_allocated_salary, which is built from
salary rows — rather than one with a null allocated amount. -/
theorem c6_counterexample :
    consolidationRowsV1 c6regs [] [] [] ("FY25") = [] ∧ c6regs ≠ [] := by
  decide

/-- Claim C6 (amended): in v3 every assignment row whose (employee,
period) has no salary entry still yields a consolidated row, with a NULL
gross pay; in v1 every consolidated row originates from a salary row of
the fiscal year with the same (employee, month), so an assignment with
no matching payroll yields no consolidated row at all. -/
theorem c6_payroll_absent_mirror :
    (∀ (mode : String) (rows : List RegionalRowV3) (sals : List SalaryRowV3)
      (pmr : List PmrRow) (i : Fin rows.length),
      salaryLookup sals (rows.get i).emplid (rows.get i).month_key = none →
      consolidateRowV3 mode rows sals pmr i ∈ consolidate_v3 mode rows sals pmr ∧
      (consolidateRowV3 mode rows sals pmr i).gross_pay = none) ∧
    (∀ (regs : List RegionalRowV1) (sals : List SalaryRowV1)
      (abd : List AbdRowV1) (pmr : List PmrRow) (fy : String)
      (c : ConsolidationRowV1), c ∈ consolidationRowsV1 regs sals abd pmr fy →
      ∃ s ∈ sals, s.fiscal_year = fy ∧ s.emplid = c.emplid ∧ s.month = c.month) := by
  constructor
  · intro mode rows sals pmr i hnone
    constructor
    · exact List.mem_map.mpr ⟨i, List.mem_finRange i, rfl⟩
    · show allocate_salary mode rows sals i = none
      unfold allocate_salary
      rw [hnone]
  · intro regs sals abd pmr fy c hc
    obtain ⟨t, ht, hct⟩ := List.mem_flatMap.mp hc
    obtain ⟨_, s, hs, hsf, hse, hsm⟩ := tempAllocatedSalary_origin ht
    obtain ⟨_, hce, hcm, _, _⟩ := consRowsForTemp_fields hct
    exact ⟨s, hs, hsf, by rw [hse, hce], by rw [hsm, hcm]⟩

def c6rows3 : List RegionalRowV3 := [⟨"E2", some ("02_2024"), some 10, some ("P9")⟩]

def c6wsals : List SalaryRowV1 := [⟨"FY", "E", "M", some 100, none⟩]

def c6wrow : ConsolidationRowV1 :=
  ⟨"FY", "E", "M", some 100, none, none, none, none, none, none, none, none,
    none, none, none, none⟩

/-- Witness for C6 (amended) at concrete inputs: a v3 assignment without
salary yields a row with NULL gross pay, and a v1 consolidated row traces
back to a salary row. -/
theorem c6_payroll_absent_mirror_witness :
    (consolidateRowV3 GROSS_PAY_ALLOCATION c6rows3 [] [] ⟨0, by decide⟩ ∈
        consolidate_v3 GROSS_PAY_ALLOCATION c6rows3 [] [] ∧
      (consolidateRowV3 GROSS_PAY_ALLOCATION c6rows3 [] [] ⟨0, by decide⟩).gross_pay
        = none) ∧
    (∃ s ∈ c6wsals, s.fiscal_year = "FY" ∧ s.emplid = c6wrow.emplid ∧
      s.month = c6wrow.month) :=
  ⟨c6_payroll_absent_mirror.1 GROSS_PAY_ALLOCATION c6rows3 [] [] ⟨0, by decide⟩
      (by decide),
    c6_payroll_absent_mirror.2 [] c6wsals [] [] ("FY") c6wrow (by decide)⟩

lemma salKey_of_filter_eq {sals : List SalaryRowV1} {fy e m : String}
    {s0 : SalaryRowV1} (hsal : sals.filter (salKey fy e m) = [s0]) :
    s0.fiscal_year = fy ∧ s0.emplid = e ∧ s0.month = m := by
  have hmem : s0 ∈ sals.filter (salKey fy e m) := by
    rw [hsal]
    exact List.mem_singleton.mpr rfl
  have := (List.mem_filter.mp hmem).2
  simpa [salKey, and_assoc] using this

lemma allocatedRowsFor_filter_keys (regs : List RegionalRowV1) (fy : String)
    (s : SalaryRowV1) (e m : String) :
    (allocatedRowsFor regs fy s).filter (fun t => t.emplid == e && t.month == m) =
      if s.emplid == e && s.month == m then allocatedRowsFor regs fy s else [] := by
  apply filter_of_keyed
  intro t ht
  obtain ⟨_, he, hm, _⟩ := allocatedRowsFor_mem ht
  rw [he, hm]

lemma allocatedTempRows_filter (regs : List RegionalRowV1)
    (sals : List SalaryRowV1) (fy e m : String) :
    (allocatedTempRows regs sals fy).filter
        (fun t => t.emplid == e && t.month == m) =
      (sals.filter (salKey fy e m)).flatMap (allocatedRowsFor regs fy) := by
  unfold allocatedTempRows
  rw [filter_flatMap_keyed _ _ _ (fun s => s.emplid == e && s.month == m)
    (fun s _ => allocatedRowsFor_filter_keys regs fy s e m)]
  congr 1
  rw [List.filter_filter]
  apply List.filter_congr
  intro s _
  simp [salKey, Bool.and_comm, Bool.and_left_comm, Bool.and_assoc]

lemma unallocatedTempRows_filter (regs : List RegionalRowV1)
    (sals : List SalaryRowV1) (fy e m : String) :
    (unallocatedTempRows regs sals fy).filter
        (fun t => t.emplid == e && t.month == m) =
      ((sals.filter (salKey fy e m)).filter
        (fun s => decide (positiveHours regs fy s.emplid s.month = []))).map
          unallocatedRowFor := by
  unfold unallocatedTempRows
  rw [List.filter_map]
  congr 1
  rw [List.filter_filter, List.filter_filter]
  apply List.filter_congr
  intro s _
  simp [salKey, Function.comp, unallocatedRowFor, Bool.and_comm,
    Bool.and_left_comm, Bool.and_assoc]

/-- The temp rows of the (e, m) group, when the salary table has exactly
one row for that key in the fiscal year: the hours-allocated rows when
the group has positive hours, else the single full-gross NULL-project
row. -/
lemma tempGroup_eq (regs : List RegionalRowV1) (sals : List SalaryRowV1)
    (fy e m : String) (s0 : SalaryRowV1)
    (hsal : sals.filter (salKey fy e m) = [s0]) :
    (tempAllocatedSalary regs sals fy).filter
        (fun t => t.emplid == e && t.month == m) =
      if positiveHours regs fy e m = [] then [unallocatedRowFor s0]
      else allocatedRowsFor regs fy s0 := by
  obtain ⟨hf0, he0, hm0⟩ := salKey_of_filter_eq hsal
  unfold tempAllocatedSalary
  rw [List.filter_append, allocatedTempRows_filter, unallocatedTempRows_filter,
    hsal]
  by_cases hp : positiveHours regs fy e m = []
  · rw [if_pos hp]
    have hempty : allocatedRowsFor regs fy s0 = [] := by
      unfold allocatedRowsFor
      rw [he0, hm0, if_pos hp]
    simp [hempty, he0, hm0, hp]
  · rw [if_neg hp]
    have hfil : List.filter
        (fun s => decide (positiveHours regs fy s.emplid s.month = [])) [s0]
          = [] := by
      simp [he0, hm0, hp]
    rw [hfil]
    simp

lemma filter_map_nodup_singleton {α β : Type} [DecidableEq β] (l : List α)
    (f : α → β) (hnd : (l.map f).Nodup) {r : α} (hr : r ∈ l) :
    l.filter (fun x => f x == f r) = [r] := by
  induction l with
  | nil => cases hr
  | cons a t ih =>
      rw [List.map_cons, List.nodup_cons] at hnd
      rcases List.mem_cons.mp hr with heq | hrt
      · subst heq
        rw [List.filter_cons, if_pos (by simp)]
        have hrest : t.filter (fun x => f x == f r) = [] := by
          refine List.filter_eq_nil_iff.mpr (fun x hx => ?_)
          simp only [beq_iff_eq]
          intro hfx
          exact hnd.1 (hfx ▸ List.mem_map_of_mem f hx)
        rw [hrest]
      · have hfa : (f a == f r) = false := by
          refine beq_eq_false_iff_ne.mpr (fun heq => ?_)
          exact hnd.1 (heq ▸ List.mem_map_of_mem f hrt)
        rw [List.filter_cons, if_neg (by simp [hfa]), ih hnd.2 hrt]

/-- The regional LEFT JOIN of the final insert matches exactly the one
group row that generated an allocated temp row, when the group's project
ids are distinct. -/
lemma joinRegional_eq_single {regs : List RegionalRowV1} {fy e m : String}
    {r : RegionalRowV1}
    (hnd : ((groupRegional regs fy e m).map (fun x => x.project_id)).Nodup)
    (hr : r ∈ groupRegional regs fy e m) (t : TempAllocatedRow)
    (hte : t.emplid = e) (htm : t.month = m) (htf : t.fiscal_year = fy) :
    regs.filter (fun x => x.emplid == t.emplid && x.month == t.month &&
      x.fiscal_year == t.fiscal_year && x.project_id == r.project_id) = [r] := by
  have h1 : regs.filter (fun x => x.emplid == t.emplid && x.month == t.month &&
      x.fiscal_year == t.fiscal_year && x.project_id == r.project_id) =
      (groupRegional regs fy e m).filter
        (fun x => x.project_id == r.project_id) := by
    unfold groupRegional
    rw [List.filter_filter]
    apply List.filter_congr
    intro x _
    rw [hte, htm, htf]
    simp [Bool.and_comm, Bool.and_left_comm, Bool.and_assoc]
  rw [h1]
  exact filter_map_nodup_singleton _ _ hnd hr

lemma consRowsForTemp_unalloc (regs : List RegionalRowV1) (abd : List AbdRowV1)
    (pmr : List PmrRow) (t : TempAllocatedRow) (hpid : t.project_id = none) :
    consRowsForTemp regs abd pmr t = [consRowBase abd pmr t none] := by
  unfold consRowsForTemp
  rw [hpid]

lemma consRowsForTemp_alloc_single {regs : List RegionalRowV1}
    {abd : List AbdRowV1} {pmr : List PmrRow} {fy e m : String}
    {r : RegionalRowV1} {t : TempAllocatedRow}
    (hnd : ((groupRegional regs fy e m).map (fun x => x.project_id)).Nodup)
    (hr : r ∈ groupRegional regs fy e m)
    (hte : t.emplid = e) (htm : t.month = m) (htf : t.fiscal_year = fy)
    (hpid : t.project_id = some r.project_id) :
    consRowsForTemp regs abd pmr t = [consRowBase abd pmr t (some r)] := by
  unfold consRowsForTemp
  split
  · rename_i heq
    rw [hpid] at heq
    exact absurd heq (Option.some_ne_none _)
  · rename_i p heq
    rw [hpid] at heq
    injection heq with hpe
    subst hpe
    rw [joinRegional_eq_single hnd hr t hte htm htf]
    rfl

lemma sumGross_singleton (c : ConsolidationRowV1) :
    sumGross [c] = c.gross_pay.getD 0 := by
  rcases hg : c.gross_pay with _ | v <;> simp [sumGross, hg]

lemma sumPositiveHours_eq_total (regs : List RegionalRowV1) (fy e m : String)
    (h : ∀ r ∈ groupRegional regs fy e m, 0 ≤ r.total_hours.getD 0) :
    sumPositiveHours regs fy e m =
      ((groupRegional regs fy e m).map (fun r => r.total_hours.getD 0)).sum := by
  unfold sumPositiveHours positiveHours
  generalize hG : groupRegional regs fy e m = G at h
  clear hG
  induction G with
  | nil => simp
  | cons a t ih =>
      have hrest := ih (fun r hr => h r (List.mem_cons_of_mem a hr))
      rw [List.filter_cons]
      by_cases hpa : (match a.total_hours with
        | some hh => decide (0 < hh)
        | none => false) = true
      · rw [if_pos hpa]
        simp [hrest]
      · rw [if_neg hpa]
        have ha0 : a.total_hours.getD 0 = 0 := by
          rcases hht : a.total_hours with _ | h2
          · simp
          · rw [hht] at hpa
            simp only [decide_eq_true_eq] at hpa
            have hge := h a (List.mem_cons_self a t)
            rw [hht] at hge
            simp only [Option.getD_some] at hge
            simp only [Option.getD_some]
            exact le_antisymm (not_lt.mp hpa) hge
        simp [hrest, ha0]

lemma sumPositiveHours_pos (regs : List RegionalRowV1) (fy e m : String)
    (hne : positiveHours regs fy e m ≠ []) :
    0 < sumPositiveHours regs fy e m := by
  unfold sumPositiveHours
  apply List.sum_pos
  · intro q hq
    obtain ⟨r, hrmem, rfl⟩ := List.mem_map.mp hq
    have hpred := (List.mem_filter.mp hrmem).2
    rcases hht : r.total_hours with _ | hv
    · rw [hht] at hpred
      simp at hpred
    · rw [hht] at hpred
      simp only [decide_eq_true_eq] at hpred
      simpa [hht] using hpred
  · intro hmap
    exact hne (List.map_eq_nil_iff.mp hmap)

/-- Conservation in v1: with one salary row for the (e, m) key carrying
gross `g`, non-negative hours and distinct project ids in the regional
group, the gross pay over the group's consolidation rows sums to `g`. -/
lemma consolidation_group_sum (regs : List RegionalRowV1)
    (sals : List SalaryRowV1) (abd : List AbdRowV1) (pmr : List PmrRow)
    (fy e m : String) (s0 : SalaryRowV1) (g : ℚ)
    (hsal : sals.filter (salKey fy e m) = [s0])
    (hg : s0.gross_pay = some g)
    (hhrs : ∀ r ∈ groupRegional regs fy e m, 0 ≤ r.total_hours.getD 0)
    (hnd : ((groupRegional regs fy e m).map (fun r => r.project_id)).Nodup) :
    sumGross ((consolidationRowsV1 regs sals abd pmr fy).filter
      (fun c => c.emplid == e && c.month == m)) = g := by
  obtain ⟨hf0, he0, hm0⟩ := salKey_of_filter_eq hsal
  unfold consolidationRowsV1
  rw [filter_flatMap_keyed (tempAllocatedSalary regs sals fy)
    (consRowsForTemp regs abd pmr)
    (fun c => c.emplid == e && c.month == m)
    (fun t => t.emplid == e && t.month == m)
    (fun t _ => by
      apply filter_of_keyed
      intro c hc
      obtain ⟨_, hce, hcm, _, _⟩ := consRowsForTemp_fields hc
      rw [hce, hcm])]
  rw [tempGroup_eq regs sals fy e m s0 hsal]
  by_cases hp : positiveHours regs fy e m = []
  · rw [if_pos hp, List.flatMap_cons, List.flatMap_nil, List.append_nil,
      consRowsForTemp_unalloc regs abd pmr _ rfl, sumGross_singleton]
    show (unallocatedRowFor s0).gross_pay.getD 0 = g
    simp [unallocatedRowFor, hg]
  · rw [if_neg hp]
    unfold allocatedRowsFor
    rw [he0, hm0, if_neg hp, sumGross_flatMap, List.map_map]
    have hrw : ∀ r ∈ groupRegional regs fy e m,
        ((fun t => sumGross (consRowsForTemp regs abd pmr t)) ∘
          mkAllocatedRow s0 (sumPositiveHours regs fy e m)) r
          = g * (r.total_hours.getD 0 / sumPositiveHours regs fy e m) := by
      intro r hr
      simp only [Function.comp_apply]
      rw [consRowsForTemp_alloc_single hnd hr he0 hm0 hf0 rfl,
        sumGross_singleton]
      show (optScaled s0.gross_pay r.total_hours
        (sumPositiveHours regs fy e m)).getD 0
          = g * (r.total_hours.getD 0 / sumPositiveHours regs fy e m)
      rw [hg]
      rcases hht : r.total_hours with _ | hv
      · simp [optScaled]
      · simp [optScaled]
    rw [List.map_congr_left hrw, sum_map_mul_div,
      ← sumPositiveHours_eq_total regs fy e m hhrs]
    have hTne : sumPositiveHours regs fy e m ≠ 0 :=
      ne_of_gt (sumPositiveHours_pos regs fy e m hp)
    field_simp

/-- Claim C1: conservation of money. In v3, for every (employee, month)
group with a salary, the allocations over the group sum exactly to the
salary in every allocation mode (recognized or fallback). In v1, with the
data-model assumptions (one salary row per key with a gross amount,
non-negative hours, one regional row per project in a group), the
non-NULL gross pay over the group's ConsolidatedRecords sums exactly to
the gross amount. -/
theorem c1_conservation_of_money :
    (∀ (mode : String) (rows : List RegionalRowV3) (sals : List SalaryRowV3)
      (i : Fin rows.length) (sal : ℚ),
      salaryLookup sals (rows.get i).emplid (rows.get i).month_key = some sal →
      ((groupIdxs rows (rows.get i).emplid (rows.get i).month_key).filterMap
        (fun j => allocate_salary mode rows sals j)).sum = sal) ∧
    (∀ (regs : List RegionalRowV1) (sals : List SalaryRowV1)
      (abd : List AbdRowV1) (pmr : List PmrRow) (fy e m : String)
      (s0 : SalaryRowV1) (g : ℚ),
      sals.filter (salKey fy e m) = [s0] →
      s0.gross_pay = some g →
      groupRegional regs fy e m ≠ [] →
      (∀ r ∈ groupRegional regs fy e m, 0 ≤ r.total_hours.getD 0) →
      ((groupRegional regs fy e m).map (fun r => r.project_id)).Nodup →
      sumGross ((consolidationRowsV1 regs sals abd pmr fy).filter
        (fun c => c.emplid == e && c.month == m)) = g) := by
  constructor
  · intro mode rows sals i sal hs
    have hne : groupIdxs rows (rows.get i).emplid (rows.get i).month_key ≠ [] :=
      fun h => by
        have := self_mem_groupIdxs rows i
        rw [h] at this
        exact List.not_mem_nil i this
    have hsome : ∀ j ∈ groupIdxs rows (rows.get i).emplid (rows.get i).month_key,
        (allocate_salary mode rows sals j).isSome := by
      intro j hj
      rw [allocate_salary_eq_group mode rows sals hj hs]
      exact allocFromGroup_isSome mode sal _ (hoursOf rows) hj
    rw [filterMap_sum_of_isSome _ _ hsome]
    exact allocate_salary_group_sum mode rows sals _ _ sal hs hne
  · intro regs sals abd pmr fy e m s0 g hsal hg _hne hhrs hnd
    exact consolidation_group_sum regs sals abd pmr fy e m s0 g hsal hg hhrs hnd

def c1regs : List RegionalRowV1 :=
  [⟨"FY25", "A1", "2024-01-31", "P1", some 40, "L", "D1", "T", "C", "N"⟩,
   ⟨"FY25", "A1", "2024-01-31", "P2", some 60, "L", "D2", "T", "C", "N"⟩]

def c1sals : List SalaryRowV1 :=
  [⟨"FY25", "A1", "2024-01-31", some 1000, none⟩]

/-- Witness for C1: the spec's concrete scenario 1 in both engines — the
group total is exactly the 1000.00 gross. -/
theorem c1_conservation_of_money_witness :
    ((groupIdxs c2rows ("A1") (some ("01_2024"))).filterMap
      (fun j => allocate_salary GROSS_PAY_ALLOCATION c2rows c2sals j)).sum
        = 1000 ∧
    sumGross ((consolidationRowsV1 c1regs c1sals [] [] ("FY25")).filter
      (fun c => c.emplid == "A1" && c.month == "2024-01-31")) = 1000 := by
  constructor
  · have h := c1_conservation_of_money.1 GROSS_PAY_ALLOCATION c2rows c2sals
      ⟨0, by decide⟩ 1000 (by decide)
    have hgrp : groupIdxs c2rows (c2rows.get ⟨0, by decide⟩).emplid
        (c2rows.get ⟨0, by decide⟩).month_key
          = groupIdxs c2rows ("A1") (some ("01_2024")) := by decide
    rw [hgrp] at h
    exact h
  · exact c1_conservation_of_money.2 c1regs c1sals [] [] ("FY25") ("A1")
      ("2024-01-31") ⟨"FY25", "A1", "2024-01-31", some 1000, none⟩ 1000
      (by decide) (by decide) (by decide) (by decide) (by decide)

def c4regs : List RegionalRowV1 :=
  [⟨"FY", "E", "M", "P1", some 0, "L", "D", "T", "C", "N"⟩]

def c4sals : List SalaryRowV1 := [⟨"FY", "E", "M", some 100, none⟩]

/-- Counterexample to C4 as stated: v1 emits a null-project
ConsolidatedRecord for an (employee, period) that does have an
Assignment — it suffices that no assignment has positive hours (here one
assignment with 0 hours exists), so null project ids do not occur only
when the group has no Assignment at all. -/
theorem c4_counterexample :
    (∃ c ∈ consolidationRowsV1 c4regs c4sals [] [] ("FY"),
      c.project_id = none ∧ c.gross_pay = some 100) ∧
    groupRegional c4regs ("FY") ("E") ("M") ≠ [] := by
  refine ⟨⟨⟨"FY", "E", "M", some 100, none, none, none, none, none, none,
    none, none, none, none, none, none⟩, ?_, rfl, rfl⟩, by decide⟩
  decide

lemma allocatedTempRows_project_some {regs : List RegionalRowV1}
    {sals : List SalaryRowV1} {fy : String} {t : TempAllocatedRow}
    (ht : t ∈ allocatedTempRows regs sals fy) : t.project_id ≠ none := by
  obtain ⟨s, _, hts⟩ := List.mem_flatMap.mp ht
  obtain ⟨_, _, _, _, _, hpid⟩ := allocatedRowsFor_mem hts
  rw [hpid]
  exact Option.some_ne_none _

/-- Claim C4 (amended): a ConsolidatedRecord has a null project id exactly
when its (employee, period) has a PayrollRecord but no Assignment with
positive hours (not: no Assignment at all); in that case exactly one such
record is emitted per PayrollRecord, carrying the full gross amount —
and in v3 a payroll-only group emits nothing, since exactly one
consolidated row is produced per assignment row. -/
theorem c4_null_project_characterization :
    (∀ (regs : List RegionalRowV1) (sals : List SalaryRowV1)
      (abd : List AbdRowV1) (pmr : List PmrRow) (fy : String)
      (c : ConsolidationRowV1), c ∈ consolidationRowsV1 regs sals abd pmr fy →
      c.project_id = none →
      positiveHours regs fy c.emplid c.month = [] ∧
      ∃ s ∈ sals, s.fiscal_year = fy ∧ s.emplid = c.emplid ∧
        s.month = c.month ∧ c.gross_pay = s.gross_pay) ∧
    (∀ (regs : List RegionalRowV1) (sals : List SalaryRowV1)
      (abd : List AbdRowV1) (pmr : List PmrRow) (fy e m : String)
      (s0 : SalaryRowV1),
      sals.filter (salKey fy e m) = [s0] →
      positiveHours regs fy e m = [] →
      ((consolidationRowsV1 regs sals abd pmr fy).filter
        (fun c => c.emplid == e && c.month == m && c.project_id == none)).map
          (fun c => c.gross_pay) = [s0.gross_pay]) ∧
    (∀ (mode : String) (rows : List RegionalRowV3) (sals : List SalaryRowV3)
      (pmr : List PmrRow),
      (consolidate_v3 mode rows sals pmr).length = rows.length) := by
  refine ⟨?_, ?_, ?_⟩
  · intro regs sals abd pmr fy c hc hnull
    obtain ⟨t, ht, hct⟩ := List.mem_flatMap.mp hc
    obtain ⟨hcf, hce, hcm, hcg, hcp⟩ := consRowsForTemp_fields hct
    have htpid : t.project_id = none := by rw [← hcp, hnull]
    have htu : t ∈ unallocatedTempRows regs sals fy := by
      rcases List.mem_append.mp ht with ha | hu
      · exact absurd htpid (allocatedTempRows_project_some ha)
      · exact hu
    obtain ⟨s, hsmem, rfl⟩ := List.mem_map.mp htu
    have hspred := (List.mem_filter.mp hsmem).2
    simp only [Bool.and_eq_true, beq_iff_eq, decide_eq_true_eq] at hspred
    refine ⟨?_, s, (List.mem_filter.mp hsmem).1, hspred.1, ?_, ?_, ?_⟩
    · rw [hce, hcm]
      exact hspred.2
    · exact hce.symm
    · exact hcm.symm
    · exact hcg
  · intro regs sals abd pmr fy e m s0 hsal hp
    obtain ⟨hf0, he0, hm0⟩ := salKey_of_filter_eq hsal
    unfold consolidationRowsV1
    rw [filter_flatMap_keyed (tempAllocatedSalary regs sals fy)
      (consRowsForTemp regs abd pmr)
      (fun c => c.emplid == e && c.month == m && c.project_id == none)
      (fun t => t.emplid == e && t.month == m && t.project_id == none)
      (fun t _ => by
        apply filter_of_keyed
        intro c hc
        obtain ⟨_, hce, hcm, _, hcp⟩ := consRowsForTemp_fields hc
        rw [hce, hcm, hcp])]
    have hsplit : (tempAllocatedSalary regs sals fy).filter
        (fun t => t.emplid == e && t.month == m && t.project_id == none) =
        ((tempAllocatedSalary regs sals fy).filter
          (fun t => t.emplid == e && t.month == m)).filter
            (fun t => t.project_id == none) := by
      rw [List.filter_filter]
      apply List.filter_congr
      intro t _
      simp [Bool.and_comm, Bool.and_left_comm, Bool.and_assoc]
    rw [hsplit, tempGroup_eq regs sals fy e m s0 hsal, if_pos hp]
    rw [List.filter_cons, if_pos (by simp [unallocatedRowFor])]
    simp only [List.filter_nil]
    rw [List.flatMap_cons, List.flatMap_nil, List.append_nil,
      consRowsForTemp_unalloc regs abd pmr _ rfl]
    rfl
  · intro mode rows sals pmr
    unfold consolidate_v3
    rw [List.length_map, List.length_finRange]

/-- Witness for C4 (amended) on a zero-hours group: exactly one
null-project record with the full gross. -/
theorem c4_null_project_characterization_witness :
    ((consolidationRowsV1 c4regs c4sals [] [] ("FY")).filter
      (fun c => c.emplid == "E" && c.month == "M" && c.project_id == none)).map
        (fun c => c.gross_pay) = [some 100] := by
  have h := c4_null_project_characterization.2.1 c4regs c4sals [] [] ("FY")
    ("E") ("M") ⟨"FY", "E", "M", some 100, none⟩ (by decide) (by decide)
  exact h

def c5v1regs : List RegionalRowV1 :=
  [⟨"FY", "E", "M", "P1", some (-5), "L", "D", "T", "C", "N"⟩,
   ⟨"FY", "E", "M", "P2", some 10, "L", "D", "T", "C", "N"⟩]

def c5v1sals : List SalaryRowV1 := [⟨"FY", "E", "M", some 100, none⟩]

/-- Claim C5 (amended): negative gross_amount or negative hours are not
detected or rejected in either engine — no warning, no skipped group. In
v3 every row of such a group still receives an allocation and the
allocations still sum to the gross amount (shares may be negative or
exceed the gross). In v1 records are likewise still emitted, and with
mixed-sign hours the group is silently miscomputed: the denominator sums
only the positive-hours rows while negative-hours rows still receive
shares, so hours -5 and 10 on a gross of 100 yield -50 and 100, whose
total 50 no longer reconciles with the gross. -/
theorem c5_negative_values_not_rejected :
    (∀ (mode : String) (rows : List RegionalRowV3) (sals : List SalaryRowV3)
      (e : String) (m : Option String) (sal : ℚ),
      salaryLookup sals e m = some sal →
      (sal < 0 ∨ ∃ j ∈ groupIdxs rows e m, hoursOf rows j < 0) →
      groupIdxs rows e m ≠ [] →
      (∀ j ∈ groupIdxs rows e m, (allocate_salary mode rows sals j).isSome) ∧
      ((groupIdxs rows e m).map
        (fun j => (allocate_salary mode rows sals j).getD 0)).sum = sal) ∧
    ((consolidationRowsV1 c5v1regs c5v1sals [] [] ("FY")).map
        (fun c => c.gross_pay) = [some (-50), some 100] ∧
      sumGross (consolidationRowsV1 c5v1regs c5v1sals [] [] ("FY")) = 50) := by
  constructor
  · intro mode rows sals e m sal hs _hneg hne
    constructor
    · intro j hj
      rw [allocate_salary_eq_group mode rows sals hj hs]
      exact allocFromGroup_isSome mode sal (groupIdxs rows e m) (hoursOf rows) hj
    · exact allocate_salary_group_sum mode rows sals e m sal hs hne
  · have hp12 : ("P1" : String) ≠ "P2" := by decide
    have hp21 : ("P2" : String) ≠ "P1" := by decide
    constructor
    · norm_num [consolidationRowsV1, tempAllocatedSalary, allocatedTempRows,
        unallocatedTempRows, allocatedRowsFor, mkAllocatedRow, groupRegional,
        positiveHours, sumPositiveHours, optScaled, consRowsForTemp,
        consRowBase, unallocatedRowFor, abdLatest, pmrLookupV1,
        List.filter_cons, List.filter_nil, beq_iff_eq, hp12, hp21,
        c5v1regs, c5v1sals]
    · norm_num [sumGross, consolidationRowsV1, tempAllocatedSalary,
        allocatedTempRows, unallocatedTempRows, allocatedRowsFor,
        mkAllocatedRow, groupRegional, positiveHours, sumPositiveHours,
        optScaled, consRowsForTemp, consRowBase, unallocatedRowFor,
        abdLatest, pmrLookupV1, List.filter_cons, List.filter_nil,
        List.filterMap_cons, List.filterMap_nil, beq_iff_eq, hp12, hp21,
        c5v1regs, c5v1sals]

/-- Witness for C5 (amended) on the negative-hours v3 group. -/
theorem c5_negative_values_not_rejected_witness :
    (∀ j ∈ groupIdxs c5rows ("E1") (some ("01_2024")),
      (allocate_salary GROSS_PAY_ALLOCATION c5rows c5sals j).isSome) ∧
    ((groupIdxs c5rows ("E1") (some ("01_2024"))).map
      (fun j => (allocate_salary GROSS_PAY_ALLOCATION c5rows c5sals j).getD 0)).sum
      = 100 :=
  c5_negative_values_not_rejected.1 GROSS_PAY_ALLOCATION c5rows c5sals ("E1")
    (some ("01_2024")) 100 (by decide)
    (Or.inr ⟨⟨0, by decide⟩, by decide, by decide⟩) (by decide)

/-! ### Directory backfill (fill_missing_emails in v1/db_operations.py) -/

/-- MySQL LOWER(TRIM(x)): trim surrounding whitespace, lowercase. -/
def lowerTrim (s : String) : String :=
  String.mk ((stripList s.data).map Char.toLower)

/-- The rows admitted by the pmr_unique subquery's WHERE clause. -/
def pmrEligible (pmr : List PmrRow) : List PmrRow :=
  pmr.filter (fun r => r.manager_name.isSome && r.manager_email.isSome)

/-- The distinct exact manager names (the GROUP BY PGM_MANAGER_NAME). -/
def pmrNames (pmr : List PmrRow) : List String :=
  ((pmrEligible pmr).filterMap (fun r => r.manager_name)).dedup

/-- Lexicographic comparison of character lists (the collation order of
the SQL MAX is modelled as code-point order). -/
def charListLt : List Char → List Char → Bool
  | [], [] => false
  | [], _ :: _ => true
  | _ :: _, [] => false
  | a :: as, b :: bs => if a < b then true else if b < a then false else charListLt as bs

def strMax (a b : String) : String := if charListLt a.data b.data then b else a

/-- MAX(PGM_MANAGER_EMAIL) within one exact-name group (string maximum). -/
def maxEmailFor (pmr : List PmrRow) (n : String) : String :=
  (((pmrEligible pmr).filter (fun r => r.manager_name == some n)).filterMap
    (fun r => r.manager_email)).foldl strMax ""

/-- The pmr_unique derived table: one (name, MAX(email)) row per exact
manager name with a non-null name and email. -/
def pmrUnique (pmr : List PmrRow) : List (String × String) :=
  (pmrNames pmr).map (fun n => (n, maxEmailFor pmr n))

/-- The pmr_unique rows joined to a consolidation row: case-insensitive,
trimmed name match; a NULL manager name matches nothing. The emails of
these rows are the values the UPDATE may assign. -/
def backfillCandidates (pmr : List PmrRow) (c : ConsolidationRowV1) :
    List String :=
  match c.pgm_manager_name with
  | none => []
  | some n => ((pmrUnique pmr).filter
      (fun u => lowerTrim u.1 == lowerTrim n)).map (fun u => u.2)

def setEmail (c : ConsolidationRowV1) (em : String) : ConsolidationRowV1 :=
  { c with pgm_manager_email := some em }

/-- One row's admissible outcomes under the UPDATE..JOIN of
fill_missing_emails: a row with a NULL email in the fiscal year that
joins at least one pmr_unique row is set to one of the joined emails
(MySQL does not specify which joined row is used when several match);
every other row is unchanged. -/
def backfillRowRel (pmr : List PmrRow) (fy : String)
    (c c2 : ConsolidationRowV1) : Prop :=
  if c.pgm_manager_email = none ∧ c.fiscal_year = fy ∧
      backfillCandidates pmr c ≠ [] then
    ∃ em ∈ backfillCandidates pmr c, c2 = setEmail c em
  else c2 = c

/-- The UPDATE as a relation between the consolidation table before and
after one backfill pass (row-by-row admissible outcomes). -/
def backfillRel (pmr : List PmrRow) (fy : String)
    (cs cs2 : List ConsolidationRowV1) : Prop :=
  List.Forall₂ (backfillRowRel pmr fy) cs cs2

lemma backfillRowRel_preserves {pmr : List PmrRow} {fy : String}
    {c c2 : ConsolidationRowV1} (h : backfillRowRel pmr fy c c2)
    (hne : c.pgm_manager_email ≠ none) : c2 = c := by
  unfold backfillRowRel at h
  rw [if_neg (fun hcond => hne hcond.1)] at h
  exact h

lemma backfillRowRel_changed {pmr : List PmrRow} {fy : String}
    {c c2 : ConsolidationRowV1} (h : backfillRowRel pmr fy c c2)
    (hne : c2 ≠ c) : c.pgm_manager_email = none := by
  unfold backfillRowRel at h
  by_cases hcond : c.pgm_manager_email = none ∧ c.fiscal_year = fy ∧
      backfillCandidates pmr c ≠ []
  · exact hcond.1
  · rw [if_neg hcond] at h
    exact absurd h hne

/-- Claim C7: the backfill updates only rows whose manager email is NULL,
so running it once or twice leaves every row that already has an email
unchanged. -/
theorem c7_backfill_non_destructive (pmr : List PmrRow) (fy : String)
    (cs cs2 cs3 : List ConsolidationRowV1)
    (h12 : backfillRel pmr fy cs cs2) (h23 : backfillRel pmr fy cs2 cs3) :
    (∀ (i : ℕ) (h1 : i < cs.length) (h2 : i < cs2.length),
      cs2.get ⟨i, h2⟩ ≠ cs.get ⟨i, h1⟩ →
      (cs.get ⟨i, h1⟩).pgm_manager_email = none) ∧
    (∀ (i : ℕ) (h1 : i < cs.length) (h3 : i < cs3.length),
      (cs.get ⟨i, h1⟩).pgm_manager_email ≠ none →
      cs3.get ⟨i, h3⟩ = cs.get ⟨i, h1⟩) := by
  have hget12 := (List.forall₂_iff_get.mp h12).2
  have hlen12 := (List.forall₂_iff_get.mp h12).1
  have hget23 := (List.forall₂_iff_get.mp h23).2
  constructor
  · intro i h1 h2 hne
    exact backfillRowRel_changed (hget12 i h1 h2) hne
  · intro i h1 h3 hne
    have h2 : i < cs2.length := by omega
    have hstep1 : cs2.get ⟨i, h2⟩ = cs.get ⟨i, h1⟩ :=
      backfillRowRel_preserves (hget12 i h1 h2) hne
    have hstep2 : cs3.get ⟨i, h3⟩ = cs2.get ⟨i, h2⟩ := by
      refine backfillRowRel_preserves (hget23 i h2 h3) ?_
      rw [hstep1]
      exact hne
    rw [hstep2, hstep1]

def c7row : ConsolidationRowV1 :=
  ⟨"FY", "E", "M", some 100, none, none, none, none, none, none, none, none,
    none, none, some ("Jane Doe"), some ("jane@x.com")⟩

lemma c7row_rel : backfillRowRel [] ("FY") c7row c7row := by
  unfold backfillRowRel
  rw [if_neg (fun hcond => by simpa [c7row] using hcond.1)]

/-- Witness for C7: a row that already has an email is untouched by two
backfill passes. -/
theorem c7_backfill_non_destructive_witness :
    ([c7row].get ⟨0, by decide⟩).pgm_manager_email ≠ none ∧
    [c7row].get ⟨0, by decide⟩ = [c7row].get ⟨0, by decide⟩ :=
  ⟨by decide,
    (c7_backfill_non_destructive [] ("FY") [c7row] [c7row] [c7row]
      (List.Forall₂.cons c7row_rel List.Forall₂.nil)
      (List.Forall₂.cons c7row_rel List.Forall₂.nil)).2
      0 (by decide) (by decide) (by decide)⟩

def c9pmr : List PmrRow :=
  [⟨"P5", some ("Jane Doe"), some ("b@x")⟩,
   ⟨"P6", some ("jane doe"), some ("a@x")⟩]

def c9row : ConsolidationRowV1 :=
  ⟨"FY", "E", "M", some 100, none, none, none, none, none, none, none, none,
    none, none, some ("JANE DOE"), none⟩

/-- Counterexample to C9 as stated: two directory spellings of the same
case-folded name carry different emails; the UPDATE..JOIN admits either
email for the null-email row (MySQL picks an unspecified matching row),
so the backfill is not the deterministic maximum-email function the claim
describes. -/
theorem c9_counterexample :
    backfillRel c9pmr ("FY") [c9row] [setEmail c9row ("a@x")] ∧
    backfillRel c9pmr ("FY") [c9row] [setEmail c9row ("b@x")] ∧
    setEmail c9row ("a@x") ≠ setEmail c9row ("b@x") := by
  refine ⟨?_, ?_, by decide⟩
  · refine List.Forall₂.cons ?_ List.Forall₂.nil
    unfold backfillRowRel
    rw [if_pos ⟨rfl, rfl, by decide⟩]
    exact ⟨"a@x", by decide, rfl⟩
  · refine List.Forall₂.cons ?_ List.Forall₂.nil
    unfold backfillRowRel
    rw [if_pos ⟨rfl, rfl, by decide⟩]
    exact ⟨"b@x", by decide, rfl⟩

lemma cands_singleton {l : List String} (hne : l ≠ []) (hle : l.length ≤ 1) :
    ∃ x, l = [x] := by
  cases l with
  | nil => exact absurd rfl hne
  | cons a t =>
      cases t with
      | nil => exact ⟨a, rfl⟩
      | cons b u => simp at hle

lemma backfillRowRel_unique {pmr : List PmrRow} {fy : String}
    {c c2 c3 : ConsolidationRowV1} (h2 : backfillRowRel pmr fy c c2)
    (h3 : backfillRowRel pmr fy c c3)
    (hle : (backfillCandidates pmr c).length ≤ 1) : c2 = c3 := by
  unfold backfillRowRel at h2 h3
  by_cases hcond : c.pgm_manager_email = none ∧ c.fiscal_year = fy ∧
      backfillCandidates pmr c ≠ []
  · rw [if_pos hcond] at h2 h3
    obtain ⟨x, hx⟩ := cands_singleton hcond.2.2 hle
    obtain ⟨e2, he2, rfl⟩ := h2
    obtain ⟨e3, he3, rfl⟩ := h3
    rw [hx] at he2 he3
    rw [List.mem_singleton.mp he2, List.mem_singleton.mp he3]
  · rw [if_neg hcond] at h2 h3
    rw [h2, h3]

/-- Claim C9 (amended): the backfill fills a null email with
MAX(PGM_MANAGER_EMAIL) grouped by the exact manager-name string; when
every row's case-folded name class carries at most one candidate email
the outcome is deterministic, and a row whose single candidate is `em`
is filled with exactly `em` — but with several exact spellings in one
case-folded class the joined row, and hence the email, is unspecified. -/
theorem c9_backfill_tiebreak (pmr : List PmrRow) (fy : String) :
    (∀ (cs cs2 cs3 : List ConsolidationRowV1),
      backfillRel pmr fy cs cs2 → backfillRel pmr fy cs cs3 →
      (∀ c ∈ cs, (backfillCandidates pmr c).length ≤ 1) → cs2 = cs3) ∧
    (∀ (c c2 : ConsolidationRowV1) (em : String),
      backfillRowRel pmr fy c c2 →
      c.pgm_manager_email = none → c.fiscal_year = fy →
      backfillCandidates pmr c = [em] → c2 = setEmail c em) := by
  constructor
  · intro cs cs2 cs3 h2 h3 hle
    induction h2 generalizing cs3 with
    | nil =>
        cases h3
        rfl
    | cons hab hrest ih =>
        rename_i a b l1 l2
        cases h3 with
        | cons hac hrest2 =>
            rename_i c l3
            have hhead : b = c := backfillRowRel_unique hab hac
              (hle a (List.mem_cons_self a l1))
            have htail : l2 = l3 := ih _ hrest2
              (fun x hx => hle x (List.mem_cons_of_mem a hx))
            rw [hhead, htail]
  · intro c c2 em hrel hemail hfy hcand
    unfold backfillRowRel at hrel
    rw [if_pos ⟨hemail, hfy, by rw [hcand]; exact List.cons_ne_nil em []⟩] at hrel
    obtain ⟨e, he, rfl⟩ := hrel
    rw [hcand] at he
    rw [List.mem_singleton.mp he]

def c9wpmr : List PmrRow := [⟨"P5", some ("Jane Doe"), some ("j@x")⟩]

def c9wrow : ConsolidationRowV1 :=
  ⟨"FY", "E", "M", some 100, none, none, none, none, none, none, none, none,
    none, none, some (" jane DOE "), none⟩

lemma c9wrow_rel : backfillRowRel c9wpmr ("FY") c9wrow
    (setEmail c9wrow ("j@x")) := by
  unfold backfillRowRel
  rw [if_pos ⟨rfl, rfl, by decide⟩]
  exact ⟨"j@x", by decide, rfl⟩

/-- Witness for C9 (amended): a single-spelling directory entry fills
deterministically with its (maximum) email. -/
theorem c9_backfill_tiebreak_witness :
    setEmail c9wrow ("j@x") = setEmail c9wrow ("j@x") ∧
    [setEmail c9wrow ("j@x")] = [setEmail c9wrow ("j@x")] :=
  ⟨(c9_backfill_tiebreak c9wpmr ("FY")).2 c9wrow (setEmail c9wrow ("j@x"))
      ("j@x") c9wrow_rel rfl rfl (by decide),
    (c9_backfill_tiebreak c9wpmr ("FY")).1 [c9wrow] _ _
      (List.Forall₂.cons c9wrow_rel List.Forall₂.nil)
      (List.Forall₂.cons c9wrow_rel List.Forall₂.nil) (by decide)⟩

end AccountConsolidator
